import Mathlib

/-!
Shallow embedding of the Task Management API (src/app.py).

The storage table `tasks` is modelled as a `List Task`; a request body is
an `Option Payload` (`none` when Flask's `get_json` yields no object);
JSON field values are `JVal`; the clock is an explicit `String`/`UtcTime`
argument.  Each HTTP handler of src/app.py becomes a pure function from
the old table and the request data to a response and the new table.
-/

namespace TaskAPI

/-- A JSON scalar value as it can appear in a request payload field.
(Nested arrays/objects never matter for any claim: the handlers only
ever test truthiness, coerce with `bool`, or store values verbatim.) -/
inductive JVal where
  | jnull : JVal
  | jbool : Bool → JVal
  | jstr : String → JVal
  | jnum : Int → JVal
deriving DecidableEq, Repr

/-- Python truthiness of a `JVal` (`bool(v)` / `if v:`):
`None`, `False`, `""` and `0` are falsy, everything else truthy. -/
def JVal.truthy : JVal → Bool
  | .jnull => false
  | .jbool b => b
  | .jstr s => !(s == "")
  | .jnum n => !(n == 0)

/-- The whitespace set of Python `str.strip()` restricted to ASCII. -/
def pyWS (c : Char) : Bool :=
  c == ' ' || c == '\t' || c == '\n' || c == '\r' || c == '\x0b' || c == '\x0c'

/-- `str.strip()` on the character list: drop leading and trailing whitespace. -/
def stripChars (l : List Char) : List Char :=
  ((l.dropWhile pyWS).reverse.dropWhile pyWS).reverse

/-- Model of Python `str.strip()` with no arguments. -/
def pyStrip (s : String) : String := ⟨stripChars s.data⟩

/-! ### Model of `datetime.fromisoformat`

src/app.py line 45 calls `datetime.fromisoformat` on the candidate after
`replace('Z', '+00:00')`.  We model the grammar CPython documents for this
parser, `YYYY-MM-DD[*HH[:MM[:SS[.fff[fff]]]][+HH:MM[:SS[.ffffff]]]]`,
where `*` is any single character (the character at index 10 is ignored),
with the library's range checks: year 1..9999, month 1..12, day up to the
month length, hour ≤ 23, minute ≤ 59, second ≤ 59, fraction of exactly
3 or 6 digits, and a UTC offset strictly smaller than 24 hours.
Components are modelled as plain decimal digits. -/

/-- Numeric value of a decimal digit character. -/
def digitVal (c : Char) : Nat := c.toNat - 48

/-- Value of a two-digit component. -/
def d2val (a b : Char) : Nat := 10 * digitVal a + digitVal b

/-- Parse exactly two decimal digits, returning the value and the rest. -/
def p2 : List Char → Option (Nat × List Char)
  | a :: b :: r => if a.isDigit && b.isDigit then some (d2val a b, r) else none
  | _ => none

/-- Value of a digit string read most-significant first. -/
def digitsVal (l : List Char) : Nat := l.foldl (fun a c => 10 * a + digitVal c) 0

/-- Gregorian leap-year rule. -/
def isLeap (y : Nat) : Bool := y % 4 == 0 && (y % 100 != 0 || y % 400 == 0)

/-- Number of days of month `m` of year `y`. -/
def daysInMonth (y m : Nat) : Nat :=
  if m == 2 then (if isLeap y then 29 else 28)
  else if m == 4 || m == 6 || m == 9 || m == 11 then 30
  else 31

/-- Is the total offset strictly smaller than 24 hours (in microseconds)? -/
def offsetOk (h m s us : Nat) : Bool :=
  ((h * 3600 + m * 60 + s) * 1000000 + us) < 86400000000

/-- Parse the optional UTC offset `+HH:MM[:SS[.ffffff]]` (or `-`), which must
consume the whole rest of the string; an absent offset is accepted. -/
def pOffset : List Char → Bool
  | [] => true
  | sgn :: r =>
    (sgn == '+' || sgn == '-') &&
    (match p2 r with
     | none => false
     | some (oh, r1) =>
       match r1 with
       | ':' :: r2 =>
         (match p2 r2 with
          | none => false
          | some (om, r3) =>
            match r3 with
            | [] => offsetOk oh om 0 0
            | ':' :: r4 =>
              (match p2 r4 with
               | none => false
               | some (os, r5) =>
                 match r5 with
                 | [] => offsetOk oh om os 0
                 | '.' :: r6 =>
                   decide (r6.length = 6) && r6.all Char.isDigit &&
                     offsetOk oh om os (digitsVal r6)
                 | _ => false)
            | _ => false)
       | _ => false)

/-- Parse the time components `HH[:MM[:SS[.fff[fff]]]]`, returning
hour, minute, second, microsecond and the unconsumed rest (which the
caller hands to `pOffset`). -/
def pTime (cs : List Char) : Option (Nat × Nat × Nat × Nat × List Char) :=
  match p2 cs with
  | none => none
  | some (h, r1) =>
    match r1 with
    | ':' :: r2 =>
      (match p2 r2 with
       | none => none
       | some (m, r3) =>
         match r3 with
         | ':' :: r4 =>
           (match p2 r4 with
            | none => none
            | some (s, r5) =>
              match r5 with
              | '.' :: r6 =>
                let ds := r6.takeWhile Char.isDigit
                let rest := r6.dropWhile Char.isDigit
                if ds.length = 3 then some (h, m, s, digitsVal ds * 1000, rest)
                else if ds.length = 6 then some (h, m, s, digitsVal ds, rest)
                else none
              | _ => some (h, m, s, 0, r5))
         | _ => some (h, m, 0, 0, r3))
    | _ => some (h, 0, 0, 0, r1)

/-- Model of `datetime.fromisoformat` on a character list: date part
`YYYY-MM-DD`, then optionally an ignored separator character and, when
anything follows it, the time-with-offset part. -/
def fromisoformatChars : List Char → Bool
  | y1 :: y2 :: y3 :: y4 :: '-' :: m1 :: m2 :: '-' :: e1 :: e2 :: rest =>
    (y1.isDigit && y2.isDigit && y3.isDigit && y4.isDigit &&
     m1.isDigit && m2.isDigit && e1.isDigit && e2.isDigit) &&
    (let y := 1000 * digitVal y1 + 100 * digitVal y2 + 10 * digitVal y3 + digitVal y4
     let mo := d2val m1 m2
     let dy := d2val e1 e2
     (1 ≤ y && 1 ≤ mo && mo ≤ 12 && 1 ≤ dy && dy ≤ daysInMonth y mo) &&
     (match rest with
      | [] => true
      | _ :: tcs =>
        tcs.isEmpty ||
        (match pTime tcs with
         | none => false
         | some (h, mi, s, _, r) => h ≤ 23 && mi ≤ 59 && s ≤ 59 && pOffset r)))
  | _ => false

/-- `candidate.replace('Z', '+00:00')` of src/app.py line 45: every
occurrence of `Z` is replaced, not only a trailing one. -/
def replaceZ : List Char → List Char
  | [] => []
  | c :: r =>
    if c == 'Z' then '+' :: '0' :: '0' :: ':' :: '0' :: '0' :: replaceZ r
    else c :: replaceZ r

/-- `validate_date` of src/app.py lines 42-48: replace every `Z` with
`+00:00`, then succeed exactly when `datetime.fromisoformat` parses. -/
def validate_date (date_str : String) : Bool :=
  fromisoformatChars (replaceZ date_str.data)

/-! ### Data model

A row of the `tasks` table (src/app.py lines 26-36).  `description` and
`due_date` are nullable columns whose content the handlers store verbatim,
so they carry a `JVal` (`jnull` models SQL NULL); `completed` is stored as
a boolean; `updated_at` is NULL (`none`) until the first update. -/
structure Task where
  id : Nat
  title : String
  description : JVal
  due_date : JVal
  completed : Bool
  created_at : String
  updated_at : Option String
deriving DecidableEq, Repr

/-- The externally visible representation of a row.  `updated_at = none`
means the key is absent from the JSON object. -/
structure TaskRepr where
  id : Nat
  title : String
  description : JVal
  due_date : JVal
  completed : Bool
  created_at : String
  updated_at : Option String
deriving DecidableEq, Repr

/-- `row_to_dict` of src/app.py lines 50-56: copy every column and hide
`updated_at` when it is NULL.  Because `Task.updated_at` is already an
`Option`, hiding NULL is exactly keeping the `Option`. -/
def row_to_dict (row : Task) : TaskRepr :=
  { id := row.id, title := row.title, description := row.description,
    due_date := row.due_date, completed := row.completed,
    created_at := row.created_at, updated_at := row.updated_at }

/-- A parsed JSON object body.  `none` in a field means the key is absent,
`some v` that it is present with value `v`; `extraKeys` records whether any
key outside the four recognized ones is present (it makes the dict truthy
but is otherwise ignored by the handlers). -/
structure Payload where
  title : Option JVal
  description : Option JVal
  due_date : Option JVal
  completed : Option JVal
  extraKeys : Bool
deriving DecidableEq, Repr

/-- Python falsiness of the parsed dict: `if not data:` is taken exactly
when the object has no keys at all. -/
def Payload.falsy (p : Payload) : Bool :=
  p.title.isNone && p.description.isNone && p.due_date.isNone &&
    p.completed.isNone && !p.extraKeys

/-- The empty JSON object `\x7b\x7d`. -/
def emptyPayload : Payload :=
  { title := none, description := none, due_date := none,
    completed := none, extraKeys := false }

/-- Outcome of a field validation step: pass, a 400 response, or an
uncaught exception (`AttributeError` on a non-string), which the
surrounding `except` turns into a 500. -/
inductive Check where
  | pass : Check
  | err400 : Check
  | err500 : Check
deriving DecidableEq, Repr

/-- `if not title or not title.strip()` applied to `data.get('title')`
(src/app.py line 85).  An absent key gives `None`, hence falsy; a truthy
non-string crashes on `.strip()`. -/
def titleCheckValue : Option JVal → Check
  | none => .err400
  | some .jnull => .err400
  | some (.jbool b) => if b then .err500 else .err400
  | some (.jnum n) => if n == 0 then .err400 else .err500
  | some (.jstr s) => if pyStrip s == "" then .err400 else .pass

/-- `if 'title' in data and (not title or not title.strip())`
(src/app.py line 183): like `titleCheckValue`, but an absent key passes. -/
def titleCheckUpdate : Option JVal → Check
  | none => .pass
  | some v => titleCheckValue (some v)

/-- `if due_date and not validate_date(due_date)` (src/app.py lines 90 and
189): a falsy value skips validation entirely; a truthy non-string crashes
inside `validate_date` on `.replace` (`AttributeError` is not caught by its
`except ValueError`). -/
def dateCheck : Option JVal → Check
  | none => .pass
  | some .jnull => .pass
  | some (.jbool b) => if b then .err500 else .pass
  | some (.jnum n) => if n == 0 then .pass else .err500
  | some (.jstr s) =>
    if s == "" then .pass
    else if validate_date s then .pass else .err400

/-- An HTTP response of the API, with enough structure to distinguish the
error classes the spec names. -/
inductive Resp where
  | ok : TaskRepr → Resp
  | created : TaskRepr → Resp
  | deletedOk : Resp
  | badRequest : String → Resp
  | notFound : Resp
  | serverError : Resp
deriving DecidableEq, Repr

def msgJsonRequired : String := "Invalid input, JSON required"
def msgTitleRequired : String := "Title is required and cannot be empty"
def msgTitleEmpty : String := "Title cannot be empty"
def msgBadDate : String := "Invalid date format. Use ISO format (YYYY-MM-DD)"

/-! ### Handlers -/

/-- The row assembled by the INSERT of src/app.py lines 102-105:
trimmed title, `description` and `due_date` verbatim (NULL when the key is
absent), `completed = False`, `created_at = now`, `updated_at` NULL.
`s` is the payload's title string. -/
def newRow (data : Payload) (now : String) (newId : Nat) (s : String) : Task :=
  { id := newId, title := pyStrip s, description := data.description.getD .jnull,
    due_date := data.due_date.getD .jnull, completed := false,
    created_at := now, updated_at := none }

/-- `create_task` of src/app.py lines 75-118.  `now` is the reading of
`datetime.now(timezone.utc).isoformat().replace('+00:00', 'Z')` and
`newId` the row id assigned by the storage engine (`cursor.lastrowid`).
The INSERT appends the row; the handler then re-reads the row by id
(first match) and returns its representation with a 201. -/
def create_task (db : List Task) (body : Option Payload) (now : String)
    (newId : Nat) : Resp × List Task :=
  match body with
  | none => (.badRequest msgJsonRequired, db)
  | some data =>
    if data.falsy then (.badRequest msgJsonRequired, db)
    else match titleCheckValue data.title with
    | .err400 => (.badRequest msgTitleRequired, db)
    | .err500 => (.serverError, db)
    | .pass =>
      match dateCheck data.due_date with
      | .err400 => (.badRequest msgBadDate, db)
      | .err500 => (.serverError, db)
      | .pass =>
        let titleStr := match data.title with
          | some (.jstr s) => s
          | _ => ""
        let db2 := db ++ [newRow data now newId titleStr]
        match db2.find? (fun t => t.id == newId) with
        | some t => (.created (row_to_dict t), db2)
        | none => (.serverError, db2)

/-- `get_tasks` of src/app.py lines 120-137: every row ordered by
`created_at` descending, and the length of the returned list as `total`. -/
def get_tasks (db : List Task) : List TaskRepr × Nat :=
  let sorted := db.mergeSort (fun a b => b.created_at ≤ a.created_at)
  (sorted.map row_to_dict, (sorted.map row_to_dict).length)

/-- `get_task` of src/app.py lines 139-159: the first row with the given
id, or a 404. -/
def get_task (db : List Task) (task_id : Nat) : Resp :=
  match db.find? (fun t => t.id == task_id) with
  | some t => .ok (row_to_dict t)
  | none => .notFound

/-- The column overwrites of `update_task` (src/app.py lines 197-218)
applied to one row: each recognized key present in the payload replaces
its column (`title` trimmed, `completed` coerced with `bool`, the other
two verbatim), and `updated_at` is stamped.  Only called when at least
one recognized key is present. -/
def applyPayload (data : Payload) (now : String) (t : Task) : Task :=
  { id := t.id
    title := match data.title with
      | some (.jstr s) => pyStrip s
      | some _ => t.title
      | none => t.title
    description := match data.description with
      | some v => v
      | none => t.description
    due_date := match data.due_date with
      | some v => v
      | none => t.due_date
    completed := match data.completed with
      | some v => v.truthy
      | none => t.completed
    created_at := t.created_at
    updated_at := some now }

/-- Does the payload contain at least one recognized column key?
(`if update_fields:` of src/app.py line 210.) -/
def Payload.anyField (data : Payload) : Bool :=
  data.title.isSome || data.description.isSome ||
    data.due_date.isSome || data.completed.isSome

/-- The effect of the update on one matching row: the staged columns are
applied when at least one recognized key is present in the payload,
otherwise no UPDATE statement runs and the row is untouched. -/
def mergeRow (data : Payload) (now : String) (t : Task) : Task :=
  if data.anyField then applyPayload data now t else t

/-- `update_task` of src/app.py lines 161-229: body-falsiness check, then
existence probe, then title and due_date validation, then the dynamic
UPDATE (a write happens only when a recognized key is present), then the
mandatory re-read of the row. -/
def update_task (db : List Task) (task_id : Nat) (body : Option Payload)
    (now : String) : Resp × List Task :=
  match body with
  | none => (.badRequest msgJsonRequired, db)
  | some data =>
    if data.falsy then (.badRequest msgJsonRequired, db)
    else if !(db.any (fun t => t.id == task_id)) then (.notFound, db)
    else match titleCheckUpdate data.title with
    | .err400 => (.badRequest msgTitleEmpty, db)
    | .err500 => (.serverError, db)
    | .pass =>
      match dateCheck data.due_date with
      | .err400 => (.badRequest msgBadDate, db)
      | .err500 => (.serverError, db)
      | .pass =>
        let db2 :=
          if data.anyField then
            db.map (fun t => if t.id == task_id then applyPayload data now t else t)
          else db
        match db2.find? (fun t => t.id == task_id) with
        | some t => (.ok (row_to_dict t), db2)
        | none => (.serverError, db2)

/-- `delete_task` of src/app.py lines 231-254: existence probe, then
`DELETE FROM tasks WHERE id = ?`. -/
def delete_task (db : List Task) (task_id : Nat) : Resp × List Task :=
  if !(db.any (fun t => t.id == task_id)) then (.notFound, db)
  else (.deletedOk, db.filter (fun t => !(t.id == task_id)))

/-! ### The UTC clock

src/app.py lines 98 and 212 read the clock as
`datetime.now(timezone.utc).isoformat().replace('+00:00', 'Z')`:
an aware datetime rendered as `YYYY-MM-DD T HH:MM:SS[.ffffff]+00:00`
with the offset then rewritten to a trailing `Z`.  We model the clock
reading as a `UtcTime` of bounded components rendered by `UtcTime.isoZ`,
mirroring `datetime.isoformat` (microseconds are printed, zero-padded to
six digits, only when nonzero). -/

/-- The decimal digit character of `n` (meaningful for `n ≤ 9`). -/
def dchar (n : Nat) : Char := Char.ofNat (48 + n)

/-- Two-digit zero-padded rendering. -/
def pad2chars (n : Nat) : List Char := [dchar (n / 10), dchar (n % 10)]

/-- Four-digit zero-padded rendering. -/
def pad4chars (n : Nat) : List Char :=
  [dchar (n / 1000), dchar (n / 100 % 10), dchar (n / 10 % 10), dchar (n % 10)]

/-- Six-digit zero-padded rendering. -/
def pad6chars (n : Nat) : List Char :=
  [dchar (n / 100000), dchar (n / 10000 % 10), dchar (n / 1000 % 10),
   dchar (n / 100 % 10), dchar (n / 10 % 10), dchar (n % 10)]

/-- A UTC clock reading, by components. -/
structure UtcTime where
  year : Nat
  month : Nat
  day : Nat
  hour : Nat
  minute : Nat
  second : Nat
  usec : Nat
deriving DecidableEq, Repr

/-- The component ranges every `datetime` value satisfies. -/
def UtcTime.WF (t : UtcTime) : Prop :=
  1 ≤ t.year ∧ t.year ≤ 9999 ∧ 1 ≤ t.month ∧ t.month ≤ 12 ∧
  1 ≤ t.day ∧ t.day ≤ daysInMonth t.year t.month ∧
  t.hour ≤ 23 ∧ t.minute ≤ 59 ∧ t.second ≤ 59 ∧ t.usec ≤ 999999

/-- The characters of `isoformat()` before the offset. -/
def UtcTime.bodychars (t : UtcTime) : List Char :=
  pad4chars t.year ++ '-' :: (pad2chars t.month ++ '-' :: (pad2chars t.day ++
  'T' :: (pad2chars t.hour ++ ':' :: (pad2chars t.minute ++ ':' :: (pad2chars t.second ++
  (if t.usec = 0 then [] else '.' :: pad6chars t.usec))))))

/-- The characters of the full clock string, offset rewritten to `Z`. -/
def UtcTime.isoZchars (t : UtcTime) : List Char := t.bodychars ++ ['Z']

/-- The clock string `datetime.now(timezone.utc).isoformat().replace('+00:00', 'Z')`. -/
def UtcTime.isoZ (t : UtcTime) : String := ⟨t.isoZchars⟩

/-- A concrete clock reading used by the witnesses. -/
def utcSample : UtcTime :=
  { year := 2024, month := 5, day := 17, hour := 10, minute := 30, second := 0, usec := 123456 }

/-- `validate_date` read with only a trailing `Z` rewritten, the way the
spec describes the function ("a literal `Z` suffix is treated as
equivalent to the UTC offset `+00:00` before parsing"). -/
def replaceZsuffix (l : List Char) : List Char :=
  if l.getLast? = some 'Z' then l.dropLast ++ ['+', '0', '0', ':', '0', '0'] else l

/-- The spec's reading of `validate_date`, for comparison with the code. -/
def validate_date_specZ (date_str : String) : Bool :=
  fromisoformatChars (replaceZsuffix date_str.data)

/-- A concrete stored row used by the counterexamples and witnesses. -/
def sampleTask : Task :=
  { id := 1, title := "Buy milk", description := .jnull, due_date := .jnull,
    completed := false, created_at := "2024-01-01T00:00:00Z", updated_at := none }

/-- The payload `\x7b"completed": true\x7d`. -/
def pCompletedTrue : Payload :=
  { title := none, description := none, due_date := none,
    completed := some (.jbool true), extraKeys := false }

/-- The payload `\x7b"title": "a", "due_date": ""\x7d`: its empty-string
due_date is falsy, so src/app.py line 90 skips `validate_date` on it. -/
def pBlankDue : Payload :=
  { title := some (.jstr "a"), description := none, due_date := some (.jstr ""),
    completed := none, extraKeys := false }

/-- The payload `\x7b"title": "   "\x7d` with a whitespace-only title. -/
def pBlankTitle : Payload :=
  { title := some (.jstr "   "), description := none, due_date := none,
    completed := none, extraKeys := false }

/-- The payload `\x7b"title": "  New title ", "description": "d"\x7d`. -/
def pTitleDesc : Payload :=
  { title := some (.jstr "  New title "), description := some (.jstr "d"),
    due_date := none, completed := none, extraKeys := false }

/-- A payload holding only a key the handlers do not recognize. -/
def pExtraOnly : Payload :=
  { title := none, description := none, due_date := none,
    completed := none, extraKeys := true }

/-- The payload `\x7b"title": "   ", "due_date": "not-a-date"\x7d`. -/
def pBlankTitleBadDue : Payload :=
  { title := some (.jstr "   "), description := none,
    due_date := some (.jstr "not-a-date"), completed := none, extraKeys := false }

/-- The payload `\x7b"title": "Write spec", "due_date": "2024-06-01T00:00:00Z"\x7d`. -/
def pTitleDue : Payload :=
  { title := some (.jstr "Write spec"), description := none,
    due_date := some (.jstr "2024-06-01T00:00:00Z"), completed := none, extraKeys := false }

/-- The due_date storage invariant the data-model section of the spec
states, as a predicate on one row: a stored non-null `due_date` passed
ISO-8601 validation when written. -/
def DueValidatedStrong (t : Task) : Prop :=
  t.due_date ≠ .jnull → ∃ s, t.due_date = .jstr s ∧ validate_date s = true

/-- The invariant the code actually maintains: a stored `due_date` that is
a non-empty string passed ISO-8601 validation when written (NULL and other
falsy values are stored verbatim without validation). -/
def DueValidated (t : Task) : Prop :=
  ∀ s, t.due_date = .jstr s → s ≠ "" → validate_date s = true

/-! ## Sanity checks and theorems -/

example : validate_date "2024-01-01T00:00:00Z" = true := by decide
example : validate_date "2024-01-01" = true := by decide
example : validate_date "not-a-date" = false := by decide
example : validate_date "" = false := by decide
example : validate_date "2024-02-30" = false := by decide
example : validate_date "2024-01-01T25:00:00" = false := by decide
example : validate_date "2024-01-01T10:30" = true := by decide
example : validate_date "2024-01-01T10:30:15.123456+05:00" = true := by decide

/-! ### The clock string always validates -/

theorem dchar_isDigit {k : Nat} (h : k ≤ 9) : (dchar k).isDigit = true := by
  interval_cases k <;> decide

theorem dchar_ne_Z {k : Nat} (h : k ≤ 9) : ¬ dchar k = 'Z' := by
  interval_cases k <;> decide

theorem digitVal_dchar {k : Nat} (h : k ≤ 9) : digitVal (dchar k) = k := by
  interval_cases k <;> decide

theorem daysInMonth_le (y m : Nat) : daysInMonth y m ≤ 31 := by
  unfold daysInMonth
  split
  · split <;> omega
  · split <;> omega

theorem replaceZ_cons_ne {c : Char} (l : List Char) (h : (c == 'Z') = false) :
    replaceZ (c :: l) = c :: replaceZ l := by
  simp [replaceZ, h]

theorem replaceZ_append (a b : List Char) :
    replaceZ (a ++ b) = replaceZ a ++ replaceZ b := by
  induction a with
  | nil => simp [replaceZ]
  | cons c r ih =>
    cases hc : c == 'Z' <;> simp [replaceZ, hc, ih]

theorem replaceZ_of_ne (l : List Char) (h : ∀ c ∈ l, ¬ c = 'Z') : replaceZ l = l := by
  induction l with
  | nil => rfl
  | cons c r ih =>
    have hc : (c == 'Z') = false := by
      simpa using h c (by simp)
    rw [replaceZ_cons_ne r hc, ih (fun x hx => h x (by simp [hx]))]

theorem replaceZ_pad2 {n : Nat} (hn : n ≤ 99) : replaceZ (pad2chars n) = pad2chars n := by
  apply replaceZ_of_ne
  intro c hc
  simp [pad2chars] at hc
  rcases hc with h | h <;> subst h
  · exact dchar_ne_Z (by omega)
  · exact dchar_ne_Z (by omega)

theorem replaceZ_pad4 {n : Nat} (hn : n ≤ 9999) : replaceZ (pad4chars n) = pad4chars n := by
  apply replaceZ_of_ne
  intro c hc
  simp [pad4chars] at hc
  rcases hc with h | h | h | h <;> subst h <;> exact dchar_ne_Z (by omega)

theorem replaceZ_pad6 {n : Nat} (hn : n ≤ 999999) : replaceZ (pad6chars n) = pad6chars n := by
  apply replaceZ_of_ne
  intro c hc
  simp [pad6chars] at hc
  rcases hc with h | h | h | h | h | h <;> subst h <;> exact dchar_ne_Z (by omega)

theorem replaceZ_bodychars (t : UtcTime) (h : t.WF) :
    replaceZ t.bodychars = t.bodychars := by
  obtain ⟨h1, h2, h3, h4, h5, h6, h7, h8, h9, h10⟩ := h
  have hday : t.day ≤ 99 := le_trans h6 (le_trans (daysInMonth_le t.year t.month) (by omega))
  unfold UtcTime.bodychars
  rw [replaceZ_append, replaceZ_pad4 h2,
    replaceZ_cons_ne _ (by decide), replaceZ_append, replaceZ_pad2 (show t.month ≤ 99 by omega),
    replaceZ_cons_ne _ (by decide), replaceZ_append, replaceZ_pad2 hday,
    replaceZ_cons_ne _ (by decide), replaceZ_append, replaceZ_pad2 (show t.hour ≤ 99 by omega),
    replaceZ_cons_ne _ (by decide), replaceZ_append, replaceZ_pad2 (show t.minute ≤ 99 by omega),
    replaceZ_cons_ne _ (by decide), replaceZ_append, replaceZ_pad2 (show t.second ≤ 99 by omega)]
  by_cases hu : t.usec = 0
  · simp [hu, replaceZ]
  · simp only [hu, if_false, if_neg hu]
    rw [replaceZ_cons_ne _ (by decide), replaceZ_pad6 h10]

theorem pad2_spec {n : Nat} (hn : n ≤ 99) :
    ∃ c1 c2 : Char, pad2chars n = [c1, c2] ∧ c1.isDigit = true ∧ c2.isDigit = true ∧
      d2val c1 c2 = n := by
  refine ⟨_, _, rfl, dchar_isDigit (by omega), dchar_isDigit (by omega), ?_⟩
  unfold d2val
  rw [digitVal_dchar (by omega), digitVal_dchar (by omega)]
  omega

theorem pad4_spec {n : Nat} (hn : n ≤ 9999) :
    ∃ a1 a2 a3 a4 : Char, pad4chars n = [a1, a2, a3, a4] ∧
      a1.isDigit = true ∧ a2.isDigit = true ∧ a3.isDigit = true ∧ a4.isDigit = true ∧
      1000 * digitVal a1 + 100 * digitVal a2 + 10 * digitVal a3 + digitVal a4 = n := by
  refine ⟨_, _, _, _, rfl, dchar_isDigit (by omega), dchar_isDigit (by omega),
    dchar_isDigit (by omega), dchar_isDigit (by omega), ?_⟩
  rw [digitVal_dchar (by omega), digitVal_dchar (by omega), digitVal_dchar (by omega),
    digitVal_dchar (by omega)]
  omega

theorem p2_pad2 {n : Nat} (hn : n ≤ 99) (r : List Char) :
    p2 (pad2chars n ++ r) = some (n, r) := by
  show p2 (dchar (n / 10) :: dchar (n % 10) :: r) = some (n, r)
  rw [p2, dchar_isDigit (show n / 10 ≤ 9 by omega), dchar_isDigit (show n % 10 ≤ 9 by omega)]
  simp [d2val, digitVal_dchar (show n / 10 ≤ 9 by omega),
    digitVal_dchar (show n % 10 ≤ 9 by omega)]
  omega

theorem pTime_pads0 {h m s : Nat} (hh : h ≤ 99) (hm : m ≤ 99) (hs : s ≤ 99) (r : List Char) :
    pTime (pad2chars h ++ ':' :: (pad2chars m ++ ':' :: (pad2chars s ++ '+' :: r)))
      = some (h, m, s, 0, '+' :: r) := by
  unfold pTime
  simp only [p2_pad2 hh, p2_pad2 hm, p2_pad2 hs]
  rfl

theorem pTime_padsF {h m s us : Nat} (hh : h ≤ 99) (hm : m ≤ 99) (hs : s ≤ 99)
    (hus : us ≤ 999999) (r : List Char) :
    pTime (pad2chars h ++ ':' :: (pad2chars m ++ ':' :: (pad2chars s ++ '.' ::
      (pad6chars us ++ '+' :: r)))) = some (h, m, s, digitsVal (pad6chars us), '+' :: r) := by
  unfold pTime
  simp only [p2_pad2 hh, p2_pad2 hm, p2_pad2 hs]
  have hd1 : (dchar (us / 100000)).isDigit = true := dchar_isDigit (by omega)
  have hd2 : (dchar (us / 10000 % 10)).isDigit = true := dchar_isDigit (by omega)
  have hd3 : (dchar (us / 1000 % 10)).isDigit = true := dchar_isDigit (by omega)
  have hd4 : (dchar (us / 100 % 10)).isDigit = true := dchar_isDigit (by omega)
  have hd5 : (dchar (us / 10 % 10)).isDigit = true := dchar_isDigit (by omega)
  have hd6 : (dchar (us % 10)).isDigit = true := dchar_isDigit (by omega)
  have hplus : ('+' : Char).isDigit = false := by decide
  simp [pad6chars, List.takeWhile_cons, List.dropWhile_cons, hd1, hd2, hd3, hd4, hd5, hd6, hplus]

/-- The reading of the UTC clock taken by src/app.py (the `isoformat()`
string with its `+00:00` offset rewritten to `Z`) always passes the
code's own `validate_date`. -/
theorem validate_date_isoZ (t : UtcTime) (h : t.WF) : validate_date t.isoZ = true := by
  have hWF := h
  obtain ⟨h1, h2, h3, h4, h5, h6, h7, h8, h9, h10⟩ := h
  have hday : t.day ≤ 99 := le_trans h6 (le_trans (daysInMonth_le t.year t.month) (by omega))
  show fromisoformatChars (replaceZ t.isoZchars) = true
  unfold UtcTime.isoZchars
  rw [replaceZ_append, replaceZ_bodychars t hWF]
  have hz : replaceZ ['Z'] = ['+', '0', '0', ':', '0', '0'] := by decide
  rw [hz]
  obtain ⟨a1, a2, a3, a4, hy, hda1, hda2, hda3, hda4, hyval⟩ := pad4_spec h2
  obtain ⟨b1, b2, hmo, hdb1, hdb2, hmoval⟩ := pad2_spec (show t.month ≤ 99 by omega)
  obtain ⟨c1, c2, hdy, hdc1, hdc2, hdyval⟩ := pad2_spec hday
  unfold UtcTime.bodychars
  rw [hy, hmo, hdy]
  simp only [List.cons_append, List.nil_append, List.append_assoc]
  rw [fromisoformatChars]
  rw [hda1, hda2, hda3, hda4, hdb1, hdb2, hdc1, hdc2]
  simp only [Bool.and_true, Bool.true_and, Bool.and_eq_true, decide_eq_true_eq]
  rw [hyval, hmoval, hdyval]
  refine ⟨⟨⟨⟨⟨h1, h3⟩, h4⟩, h5⟩, h6⟩, ?_⟩
  have hoff : pOffset ['+', '0', '0', ':', '0', '0'] = true := by decide
  by_cases hu : t.usec = 0
  · rw [if_pos hu]
    simp only [List.nil_append]
    rw [pTime_pads0 (show t.hour ≤ 99 by omega) (show t.minute ≤ 99 by omega)
      (show t.second ≤ 99 by omega)]
    simp [h7, h8, h9, hoff]
  · rw [if_neg hu]
    simp only [List.cons_append, List.append_assoc]
    rw [pTime_padsF (show t.hour ≤ 99 by omega) (show t.minute ≤ 99 by omega)
      (show t.second ≤ 99 by omega) h10]
    simp [h7, h8, h9, hoff]

/-! ### All-occurrence versus suffix-only `Z` replacement -/

theorem replaceZ_eq_replaceZsuffix (l : List Char) (h : 'Z' ∉ l.dropLast) :
    replaceZ l = replaceZsuffix l := by
  induction l with
  | nil => rfl
  | cons c r ih =>
    cases r with
    | nil =>
      by_cases hc : c = 'Z'
      · subst hc
        decide
      · have hcb : (c == 'Z') = false := beq_eq_false_iff_ne.mpr hc
        rw [replaceZ_cons_ne _ hcb]
        unfold replaceZsuffix
        rw [if_neg (by simp [hc])]
        simp [replaceZ]
    | cons d r' =>
      simp only [List.dropLast_cons₂, List.mem_cons, not_or] at h
      obtain ⟨hc, hrest⟩ := h
      have hcb : (c == 'Z') = false := beq_eq_false_iff_ne.mpr (fun hh => hc hh.symm)
      rw [replaceZ_cons_ne _ hcb, ih hrest]
      unfold replaceZsuffix
      rw [List.getLast?_cons_cons]
      by_cases hZ : (d :: r').getLast? = some 'Z'
      · rw [if_pos hZ, if_pos hZ, List.dropLast_cons₂, List.cons_append]
      · rw [if_neg hZ, if_neg hZ]

/-! ### Claim C5 -/

/-- C5 counterexample: the claim reads `validate_date` as accepting
exactly the ISO-8601 strings after rewriting a trailing `Z`, but the code
replaces every `Z`: on `"0001-01-01ZZ"` the code's all-occurrence rewrite
yields `"0001-01-01+00:00+00:00"`, which parses (any character may
separate date and time), while the suffix-only reading does not parse. -/
theorem c5_counterexample :
    validate_date "0001-01-01ZZ" = true ∧ validate_date_specZ "0001-01-01ZZ" = false := by
  decide

/-- C5 (amended): on every candidate whose `Z` occurrences are confined
to a trailing suffix character, `validate_date` accepts exactly when the
string with that suffix read as UTC offset `+00:00` parses as ISO-8601;
strings with an interior `Z` are instead judged after replacing every
occurrence. -/
theorem c5_amended (s : String) (h : 'Z' ∉ s.data.dropLast) :
    validate_date s = validate_date_specZ s := by
  unfold validate_date validate_date_specZ
  rw [replaceZ_eq_replaceZsuffix _ h]

/-- Witness for C5 (amended) at a concrete accepted timestamp. -/
theorem c5_witness :
    'Z' ∉ ("2024-06-30T12:00:00Z" : String).data.dropLast ∧
      validate_date "2024-06-30T12:00:00Z" = validate_date_specZ "2024-06-30T12:00:00Z" :=
  ⟨by decide, c5_amended "2024-06-30T12:00:00Z" (by decide)⟩

/-! ### Control-flow lemmas for the create and update handlers -/

theorem find?_map_pres {α : Type} (g : α → α) (q : α → Bool) (l : List α)
    (hpres : ∀ t, q (g t) = q t) :
    (l.map g).find? q = (l.find? q).map g := by
  induction l with
  | nil => simp
  | cons a l ih =>
    rw [List.map_cons]
    cases ha : q a with
    | true =>
      have hga : q (g a) = true := by rw [hpres]; exact ha
      rw [List.find?_cons_of_pos _ hga, List.find?_cons_of_pos _ ha]
      rfl
    | false =>
      have hga : ¬ q (g a) = true := by rw [hpres, ha]; exact Bool.false_ne_true
      rw [List.find?_cons_of_neg _ hga,
        List.find?_cons_of_neg _ (by rw [ha]; exact Bool.false_ne_true), ih]

theorem applyPayload_id (p : Payload) (now : String) (t : Task) :
    (applyPayload p now t).id = t.id := rfl

/-- The successful path of `update_task`: on an existing id with a body
that passes the falsiness, title and due_date checks, the handler applies
the staged columns to every matching row exactly when at least one
recognized key is present, re-reads the first matching row, and returns
its representation with a 200. -/
theorem update_pass (db : List Task) (tid : Nat) (p : Payload) (now : String) (t0 : Task)
    (hfind : db.find? (fun t => t.id == tid) = some t0)
    (hfalsy : p.falsy = false)
    (htc : titleCheckUpdate p.title = .pass)
    (hdc : dateCheck p.due_date = .pass) :
    update_task db tid (some p) now =
      (.ok (row_to_dict (if p.anyField then applyPayload p now t0 else t0)),
       if p.anyField then
         db.map (fun t => if t.id == tid then applyPayload p now t else t)
       else db) := by
  have hmem := List.mem_of_find?_eq_some hfind
  have hpred : (t0.id == tid) = true := by
    have h := List.find?_some hfind
    simpa using h
  have hany : db.any (fun t => t.id == tid) = true := List.any_eq_true.mpr ⟨t0, hmem, hpred⟩
  have hpres : ∀ t : Task,
      ((if t.id == tid then applyPayload p now t else t).id == tid) = (t.id == tid) := by
    intro t
    by_cases h : (t.id == tid) = true
    · rw [if_pos h, applyPayload_id]
    · rw [if_neg h]
  cases haf : p.anyField with
  | true =>
    simp only [update_task, hfalsy, hany, htc, hdc, haf, Bool.not_true, Bool.false_eq_true,
      if_false, if_true]
    rw [find?_map_pres _ _ _ hpres, hfind, Option.map_some', if_pos hpred]
  | false =>
    simp only [update_task, hfalsy, hany, htc, hdc, haf, Bool.not_true, Bool.false_eq_true,
      if_false, if_true, hfind]

/-- The successful path of `create_task`: with a title that trims to a
non-blank string and a due_date passing its check, the handler appends the
new row (fresh storage id) and returns its representation with a 201. -/
theorem create_pass (db : List Task) (p : Payload) (now : String) (newId : Nat) (s : String)
    (htitle : p.title = some (.jstr s)) (hs : (pyStrip s == "") = false)
    (hdc : dateCheck p.due_date = .pass)
    (hfresh : ∀ t ∈ db, ¬ (t.id == newId) = true) :
    create_task db (some p) now newId =
      (.created (row_to_dict (newRow p now newId s)), db ++ [newRow p now newId s]) := by
  have hfalsy : p.falsy = false := by
    simp [Payload.falsy, htitle]
  have htc : titleCheckValue (some (.jstr s)) = .pass := by
    simp [titleCheckValue, hs]
  have hnone : db.find? (fun t => t.id == newId) = none :=
    List.find?_eq_none.mpr hfresh
  simp only [create_task, hfalsy, htitle, htc, hdc, Bool.false_eq_true, if_false,
    List.find?_append, hnone, Option.none_or]
  rw [List.find?_cons_of_pos _ (by simp [newRow])]

/-! ### Claim C7 -/

/-- C7: for every storage state, the list operation returns all stored
records (a permutation of the table's external representations), ordered
by `created_at` descending, and a `total` equal to the number of records
returned. -/
theorem c7_list_all_ordered_counted (db : List Task) :
    ((get_tasks db).1).Perm (db.map row_to_dict) ∧
    List.Pairwise (fun a b : TaskRepr => b.created_at ≤ a.created_at) (get_tasks db).1 ∧
    (get_tasks db).2 = (get_tasks db).1.length := by
  refine ⟨?_, ?_, rfl⟩
  · exact (List.mergeSort_perm db _).map row_to_dict
  · rw [get_tasks]
    rw [List.pairwise_map]
    have hs := @List.sorted_mergeSort Task
      (fun a b : Task => decide (b.created_at ≤ a.created_at))
      (fun a b c hab hbc => by
        simp only [decide_eq_true_eq] at *
        exact le_trans hbc hab)
      (fun a b => by
        simp only [Bool.or_eq_true, decide_eq_true_eq]
        exact le_total b.created_at a.created_at)
      db
    exact hs.imp (by simp only [decide_eq_true_eq]; exact fun h => h)

/-! ### Claim C1 -/

/-- C1: for every update on an existing task id with a valid payload,
exactly the recognized keys present in the payload are overwritten in the
stored row — title trimmed, completed coerced to boolean, description and
due_date verbatim — id and created_at are untouched, and updated_at is set
to the current UTC clock reading exactly when at least one recognized key
is present; the merged row is re-read and returned. -/
theorem c1_update_overwrites_present_keys (db : List Task) (tid : Nat) (p : Payload)
    (now : String) (t0 : Task)
    (hfind : db.find? (fun t => t.id == tid) = some t0)
    (hfalsy : p.falsy = false)
    (htitle : p.title = none ∨ ∃ s, p.title = some (.jstr s) ∧ pyStrip s ≠ "")
    (hdate : p.due_date = none ∨ p.due_date = some .jnull ∨ p.due_date = some (.jstr "") ∨
      ∃ d, p.due_date = some (.jstr d) ∧ validate_date d = true) :
    update_task db tid (some p) now =
      (.ok (row_to_dict (mergeRow p now t0)),
       db.map (fun t => if t.id == tid then mergeRow p now t else t)) ∧
    (mergeRow p now t0).title =
      (match p.title with | some (.jstr s) => pyStrip s | _ => t0.title) ∧
    (mergeRow p now t0).description = p.description.getD t0.description ∧
    (mergeRow p now t0).due_date = p.due_date.getD t0.due_date ∧
    (mergeRow p now t0).completed =
      (match p.completed with | some v => v.truthy | none => t0.completed) ∧
    (mergeRow p now t0).id = t0.id ∧
    (mergeRow p now t0).created_at = t0.created_at ∧
    (mergeRow p now t0).updated_at = (if p.anyField then some now else t0.updated_at) := by
  have htc : titleCheckUpdate p.title = .pass := by
    rcases htitle with h | ⟨s, hps, hs⟩
    · rw [h]; rfl
    · rw [hps]
      simp [titleCheckUpdate, titleCheckValue, beq_eq_false_iff_ne.mpr hs]
  have hdc : dateCheck p.due_date = .pass := by
    rcases hdate with h | h | h | ⟨d, hpd, hd⟩
    · rw [h]; rfl
    · rw [h]; rfl
    · rw [h]; rfl
    · rw [hpd]
      simp only [dateCheck, hd]
      split <;> rfl
  have hmain := update_pass db tid p now t0 hfind hfalsy htc hdc
  cases haf : p.anyField with
  | false =>
    have hnone : p.title = none ∧ p.description = none ∧ p.due_date = none ∧
        p.completed = none := by
      simp only [Payload.anyField, Bool.or_eq_false_iff] at haf
      obtain ⟨⟨⟨h1, h2⟩, h3⟩, h4⟩ := haf
      exact ⟨Option.not_isSome_iff_eq_none.mp (by simp [h1]),
        Option.not_isSome_iff_eq_none.mp (by simp [h2]),
        Option.not_isSome_iff_eq_none.mp (by simp [h3]),
        Option.not_isSome_iff_eq_none.mp (by simp [h4])⟩
    obtain ⟨hn1, hn2, hn3, hn4⟩ := hnone
    refine ⟨?_, ?_, ?_, ?_, ?_, ?_, ?_, ?_⟩ <;>
      simp [hmain, mergeRow, haf, hn1, hn2, hn3, hn4, List.map_id']
  | true =>
    refine ⟨?_, ?_, ?_, ?_, ?_, ?_, ?_, ?_⟩
    · rw [hmain]
      simp [mergeRow, haf]
    · rcases htitle with h | ⟨s, hps, hs⟩
      · simp [mergeRow, haf, applyPayload, h]
      · simp [mergeRow, haf, applyPayload, hps]
    · cases h : p.description <;> simp [mergeRow, haf, applyPayload, h]
    · cases h : p.due_date <;> simp [mergeRow, haf, applyPayload, h]
    · cases h : p.completed <;> simp [mergeRow, haf, applyPayload, h]
    · simp [mergeRow, haf, applyPayload]
    · simp [mergeRow, haf, applyPayload]
    · simp [mergeRow, haf, applyPayload]

/-- Witness for C1 on a one-row table and the payload
`\x7b"title": "  New title ", "description": "d"\x7d`. -/
theorem c1_witness :
    update_task [sampleTask] 1 (some pTitleDesc) "2025-01-01T00:00:00Z" =
      (.ok (row_to_dict (mergeRow pTitleDesc "2025-01-01T00:00:00Z" sampleTask)),
       [sampleTask].map
         (fun t => if t.id == 1 then mergeRow pTitleDesc "2025-01-01T00:00:00Z" t else t)) :=
  (c1_update_overwrites_present_keys [sampleTask] 1 pTitleDesc "2025-01-01T00:00:00Z" sampleTask
    (by decide) (by decide) (Or.inr ⟨"  New title ", rfl, by decide⟩) (Or.inl rfl)).1

/-! ### Claim C2 -/

/-- C2 counterexample: the claim says updating an existing task with the
empty JSON object succeeds and returns the unchanged record, but the
handler's `if not data:` guard (src/app.py line 166) treats the empty dict
as a missing body and rejects it with 400 before looking at storage. -/
theorem c2_counterexample :
    update_task [sampleTask] 1 (some emptyPayload) "2025-01-01T00:00:00Z" =
      (.badRequest msgJsonRequired, [sampleTask]) ∧
    Resp.badRequest msgJsonRequired ≠ .ok (row_to_dict sampleTask) := by
  decide

/-- C2 (amended): an update whose body is the empty JSON object is
rejected as a missing body (400, "Invalid input, JSON required") with no
write; an update whose body is a non-empty object containing none of the
four recognized keys succeeds, performs no write, and returns the record
unchanged (updated_at included). -/
theorem c2_amended :
    (∀ (db : List Task) (tid : Nat) (now : String),
      update_task db tid (some emptyPayload) now = (.badRequest msgJsonRequired, db)) ∧
    (∀ (db : List Task) (tid : Nat) (now : String) (p : Payload) (t0 : Task),
      db.find? (fun t => t.id == tid) = some t0 →
      p.title = none → p.description = none → p.due_date = none → p.completed = none →
      p.extraKeys = true →
      update_task db tid (some p) now = (.ok (row_to_dict t0), db)) := by
  constructor
  · intro db tid now
    rfl
  · intro db tid now p t0 hfind h1 h2 h3 h4 h5
    have hfalsy : p.falsy = false := by
      simp [Payload.falsy, h5]
    have haf : p.anyField = false := by
      simp [Payload.anyField, h1, h2, h3, h4]
    have h := update_pass db tid p now t0 hfind hfalsy (by rw [h1]; rfl) (by rw [h3]; rfl)
    rw [h, haf]
    simp

/-- Witness for C2 (amended): the empty body is rejected on a one-row
table, and an unrecognized-key body returns the row unchanged. -/
theorem c2_witness :
    update_task [sampleTask] 1 (some emptyPayload) "2025-01-01T00:00:00Z" =
      (.badRequest msgJsonRequired, [sampleTask]) ∧
    update_task [sampleTask] 1 (some pExtraOnly) "2025-01-01T00:00:00Z" =
      (.ok (row_to_dict sampleTask), [sampleTask]) :=
  ⟨c2_amended.1 [sampleTask] 1 "2025-01-01T00:00:00Z",
   c2_amended.2 [sampleTask] 1 "2025-01-01T00:00:00Z" pExtraOnly sampleTask
     (by decide) rfl rfl rfl rfl rfl⟩

/-! ### Claim C9 -/

/-- C9: updating an existing record with `\x7b"completed": true\x7d`
leaves title, description, due_date and created_at unchanged, sets
completed to true, and stamps updated_at with the update-time clock
reading, which is strictly later than created_at whenever the clock has
advanced past the stored creation time. -/
theorem c9_completed_true_frame (db : List Task) (tid : Nat) (now : String) (t0 : Task)
    (hfind : db.find? (fun t => t.id == tid) = some t0)
    (hlater : t0.created_at < now) :
    (update_task db tid (some pCompletedTrue) now).1 =
        .ok (row_to_dict (applyPayload pCompletedTrue now t0)) ∧
    (applyPayload pCompletedTrue now t0).title = t0.title ∧
    (applyPayload pCompletedTrue now t0).description = t0.description ∧
    (applyPayload pCompletedTrue now t0).due_date = t0.due_date ∧
    (applyPayload pCompletedTrue now t0).created_at = t0.created_at ∧
    (applyPayload pCompletedTrue now t0).completed = true ∧
    (applyPayload pCompletedTrue now t0).updated_at = some now ∧
    (applyPayload pCompletedTrue now t0).created_at < now := by
  have h := update_pass db tid pCompletedTrue now t0 hfind rfl rfl rfl
  refine ⟨?_, rfl, rfl, rfl, rfl, rfl, rfl, hlater⟩
  rw [h]
  rfl

/-- Witness for C9 on a one-row table with an advanced clock. -/
theorem c9_witness :
    (update_task [sampleTask] 1 (some pCompletedTrue) "2025-01-01T00:00:00Z").1 =
        .ok (row_to_dict (applyPayload pCompletedTrue "2025-01-01T00:00:00Z" sampleTask)) ∧
    (applyPayload pCompletedTrue "2025-01-01T00:00:00Z" sampleTask).completed = true :=
  ⟨(c9_completed_true_frame [sampleTask] 1 "2025-01-01T00:00:00Z" sampleTask
      (by decide) (by rw [String.lt_iff_toList_lt]; decide)).1,
   (c9_completed_true_frame [sampleTask] 1 "2025-01-01T00:00:00Z" sampleTask
      (by decide) (by rw [String.lt_iff_toList_lt]; decide)).2.2.2.2.2.1⟩

/-! ### Claim C10 -/

/-- C10: in the update handler the existence probe runs before field
validation, so an update of a non-existent id with any parseable non-empty
object body — a blank title or an invalid due_date included — yields 404,
not a 400 validation error, and leaves storage untouched. -/
theorem c10_existence_check_before_validation (db : List Task) (tid : Nat) (p : Payload)
    (now : String)
    (hne : db.any (fun t => t.id == tid) = false)
    (hp : p.falsy = false) :
    update_task db tid (some p) now = (.notFound, db) := by
  simp [update_task, hne, hp]

/-- Witness for C10: a blank-title body (which update validation would
otherwise reject with 400) still yields 404 on a missing id. -/
theorem c10_witness :
    update_task [] 42 (some pBlankTitle) "2025-01-01T00:00:00Z" = (.notFound, []) ∧
    titleCheckUpdate pBlankTitle.title = .err400 :=
  ⟨c10_existence_check_before_validation [] 42 pBlankTitle "2025-01-01T00:00:00Z"
      (by decide) (by decide),
   by decide⟩

/-! ### Claim C8 -/

/-- C8 counterexample: an update of a missing id whose body is the empty
JSON object is rejected as a missing body (400), not with 404, because the
`if not data:` guard runs before the existence probe. -/
theorem c8_counterexample :
    (update_task [] 1 (some emptyPayload) "2025-01-01T00:00:00Z").1 =
        .badRequest msgJsonRequired ∧
    Resp.badRequest msgJsonRequired ≠ .notFound := by
  decide

/-- C8 (amended): for a non-existent id, delete always yields 404 with no
mutation, and update yields 404 with no mutation provided its body is a
parseable non-empty object (a missing or empty body yields 400 instead,
also with no mutation); on an existing id, delete succeeds and repeating
it yields 404 with the storage left as the first delete produced. -/
theorem c8_amended :
    (∀ (db : List Task) (tid : Nat) (p : Payload) (now : String),
      db.any (fun t => t.id == tid) = false → p.falsy = false →
      update_task db tid (some p) now = (.notFound, db)) ∧
    (∀ (db : List Task) (tid : Nat),
      db.any (fun t => t.id == tid) = false →
      delete_task db tid = (.notFound, db)) ∧
    (∀ (db : List Task) (tid : Nat),
      db.any (fun t => t.id == tid) = true →
      (delete_task db tid).1 = .deletedOk ∧
      delete_task (delete_task db tid).2 tid = (.notFound, (delete_task db tid).2)) := by
  refine ⟨?_, ?_, ?_⟩
  · intro db tid p now hne hp
    simp [update_task, hne, hp]
  · intro db tid hne
    simp [delete_task, hne]
  · intro db tid hex
    have hgone : (db.filter (fun t => !(t.id == tid))).any (fun t => t.id == tid) = false := by
      rw [List.any_eq_false]
      intro x hx
      have hq := (List.mem_filter.mp hx).2
      simp only [Bool.not_eq_true'] at hq
      simp [hq]
    constructor
    · simp [delete_task, hex]
    · simp [delete_task, hex, hgone]

/-- Witness for C8 (amended): a missing id yields 404 for update and
delete on the empty table, and deleting the only row succeeds once and
yields 404 the second time. -/
theorem c8_witness :
    update_task [] 7 (some pBlankTitle) "2025-01-01T00:00:00Z" = (.notFound, []) ∧
    delete_task ([] : List Task) 7 = (.notFound, []) ∧
    ((delete_task [sampleTask] 1).1 = .deletedOk ∧
      delete_task (delete_task [sampleTask] 1).2 1 = (.notFound, (delete_task [sampleTask] 1).2)) :=
  ⟨c8_amended.1 [] 7 pBlankTitle "2025-01-01T00:00:00Z" (by decide) (by decide),
   c8_amended.2.1 [] 7 (by decide),
   c8_amended.2.2 [sampleTask] 1 (by decide)⟩

/-! ### Claim C4 -/

/-- C4 counterexample: a create whose payload is the empty object has an
absent title, yet the `if not data:` guard (src/app.py line 80) rejects
it as a missing body ("Invalid input, JSON required") before the title
check, so the EmptyTitle error is never produced for it. -/
theorem c4_counterexample :
    create_task [] (some emptyPayload) "2024-01-01T00:00:00Z" 1 =
      (.badRequest msgJsonRequired, []) ∧
    msgJsonRequired ≠ msgTitleRequired := by
  decide

/-- C4 (amended): for every create payload that is a non-empty object
whose title is absent, null, or a string that trims to empty, the handler
returns the EmptyTitle error (400) regardless of every other field, and
no record is inserted; the empty object is instead rejected as a missing
body (400), likewise without inserting. -/
theorem c4_amended (db : List Task) (p : Payload) (now : String) (newId : Nat)
    (htitle : p.title = none ∨ p.title = some .jnull ∨
      ∃ s, p.title = some (.jstr s) ∧ pyStrip s = "")
    (hnf : p.falsy = false) :
    create_task db (some p) now newId = (.badRequest msgTitleRequired, db) := by
  have htc : titleCheckValue p.title = .err400 := by
    rcases htitle with h | h | ⟨s, hps, hs⟩
    · rw [h]; rfl
    · rw [h]; rfl
    · rw [hps]
      simp [titleCheckValue, hs]
  simp [create_task, hnf, htc]

/-- Witness for C4 (amended): a whitespace-only title with an invalid
due_date alongside still yields the EmptyTitle error and no insert. -/
theorem c4_witness :
    create_task [] (some pBlankTitleBadDue) "2024-01-01T00:00:00Z" 5 =
      (.badRequest msgTitleRequired, []) :=
  c4_amended [] pBlankTitleBadDue "2024-01-01T00:00:00Z" 5
    (Or.inr (Or.inr ⟨"   ", rfl, by decide⟩)) (by decide)

/-! ### Claim C3 -/

/-- C3: for every create payload whose title trims to a non-blank string
and whose due_date, when present and non-empty, passes ISO-8601
validation, the create operation returns 201 with the re-read row: the
storage-assigned id, created_at equal to the UTC clock string (which is a
valid, Z-terminated ISO-8601 timestamp), completed false, and no
updated_at key in the representation. -/
theorem c3_create_valid (db : List Task) (p : Payload) (tc : UtcTime) (newId : Nat) (s : String)
    (hWF : tc.WF)
    (htitle : p.title = some (.jstr s)) (hs : pyStrip s ≠ "")
    (hdate : p.due_date = none ∨ p.due_date = some .jnull ∨ p.due_date = some (.jstr "") ∨
      ∃ d, p.due_date = some (.jstr d) ∧ validate_date d = true)
    (hfresh : ∀ t ∈ db, t.id ≠ newId) :
    (create_task db (some p) tc.isoZ newId).1 =
        .created (row_to_dict (newRow p tc.isoZ newId s)) ∧
    (newRow p tc.isoZ newId s).id = newId ∧
    (newRow p tc.isoZ newId s).created_at = tc.isoZ ∧
    validate_date (newRow p tc.isoZ newId s).created_at = true ∧
    (newRow p tc.isoZ newId s).created_at.data.getLast? = some 'Z' ∧
    (newRow p tc.isoZ newId s).completed = false ∧
    (row_to_dict (newRow p tc.isoZ newId s)).updated_at = none := by
  have hdc : dateCheck p.due_date = .pass := by
    rcases hdate with h | h | h | ⟨d, hpd, hd⟩
    · rw [h]; rfl
    · rw [h]; rfl
    · rw [h]; rfl
    · rw [hpd]
      simp only [dateCheck, hd]
      split <;> rfl
  have h := create_pass db p tc.isoZ newId s htitle (beq_eq_false_iff_ne.mpr hs) hdc
    (fun t ht => by simpa using hfresh t ht)
  refine ⟨by rw [h], rfl, rfl, validate_date_isoZ tc hWF, ?_, rfl, rfl⟩
  show (UtcTime.isoZchars tc).getLast? = some 'Z'
  rw [UtcTime.isoZchars]
  exact List.getLast?_concat _

/-- Witness for C3 at a concrete payload and clock reading. -/
theorem c3_witness :
    (create_task [] (some pTitleDue) utcSample.isoZ 1).1 =
      .created (row_to_dict (newRow pTitleDue utcSample.isoZ 1 "Write spec")) ∧
    validate_date (newRow pTitleDue utcSample.isoZ 1 "Write spec").created_at = true :=
  ⟨(c3_create_valid [] pTitleDue utcSample 1 "Write spec" (by unfold UtcTime.WF; decide) rfl
      (by decide)
      (Or.inr (Or.inr (Or.inr ⟨"2024-06-01T00:00:00Z", rfl, by decide⟩))) (by simp)).1,
   (c3_create_valid [] pTitleDue utcSample 1 "Write spec" (by unfold UtcTime.WF; decide) rfl
      (by decide)
      (Or.inr (Or.inr (Or.inr ⟨"2024-06-01T00:00:00Z", rfl, by decide⟩))) (by simp)).2.2.2.1⟩

/-! ### Claim C6 -/

theorem dateCheck_pass_validate {v : JVal} (hdc : dateCheck (some v) = .pass)
    {d : String} (hv : v = .jstr d) (hne : d ≠ "") : validate_date d = true := by
  subst hv
  simp only [dateCheck] at hdc
  by_cases he : (d == "") = true
  · exact absurd (by simpa using he) hne
  · rw [if_neg he] at hdc
    by_cases hval : validate_date d = true
    · exact hval
    · rw [if_neg hval] at hdc
      exact absurd hdc (by simp)

theorem dueValidated_newRow (p : Payload) (now : String) (newId : Nat) (s : String)
    (hdc : dateCheck p.due_date = .pass) : DueValidated (newRow p now newId s) := by
  intro d hds hdne
  have hds' : p.due_date.getD .jnull = .jstr d := hds
  cases hpd : p.due_date with
  | none =>
    rw [hpd] at hds'
    exact absurd hds' (by simp)
  | some v =>
    rw [hpd] at hds' hdc
    exact dateCheck_pass_validate hdc (by simpa using hds') hdne

theorem dueValidated_applyPayload (p : Payload) (now : String) (t : Task)
    (hdc : dateCheck p.due_date = .pass) (ht : DueValidated t) :
    DueValidated (applyPayload p now t) := by
  intro d hds hdne
  have hds' : (match p.due_date with | some v => v | none => t.due_date) = .jstr d := hds
  cases hpd : p.due_date with
  | none =>
    rw [hpd] at hds'
    exact ht d hds' hdne
  | some v =>
    rw [hpd] at hds' hdc
    exact dateCheck_pass_validate hdc hds' hdne

/-- C6 counterexample: creating with `\x7b"title": "a", "due_date": ""\x7d`
succeeds (the empty string is falsy, so src/app.py line 90 skips
`validate_date`) and stores the non-null due_date value `""`, which fails
ISO-8601 validation — so not every stored non-null due_date passed
validation when written. -/
theorem c6_counterexample :
    (create_task [] (some pBlankDue) "2024-01-01T00:00:00Z" 1).1 =
        .created (row_to_dict (newRow pBlankDue "2024-01-01T00:00:00Z" 1 "a")) ∧
    (create_task [] (some pBlankDue) "2024-01-01T00:00:00Z" 1).2 =
        [newRow pBlankDue "2024-01-01T00:00:00Z" 1 "a"] ∧
    (newRow pBlankDue "2024-01-01T00:00:00Z" 1 "a").due_date = .jstr "" ∧
    JVal.jstr "" ≠ .jnull ∧
    validate_date "" = false := by
  decide

/-- C6 (amended): the create and update operations preserve the invariant
that every stored due_date which is a non-empty string passed ISO-8601
validation at the time it was written; falsy due_date values (NULL, the
empty string, false, 0) may be stored verbatim without validation. -/
theorem c6_amended :
    (∀ (db : List Task) (body : Option Payload) (now : String) (newId : Nat),
      (∀ t ∈ db, DueValidated t) →
      ∀ t ∈ (create_task db body now newId).2, DueValidated t) ∧
    (∀ (db : List Task) (tid : Nat) (body : Option Payload) (now : String),
      (∀ t ∈ db, DueValidated t) →
      ∀ t ∈ (update_task db tid body now).2, DueValidated t) := by
  constructor
  · intro db body now newId hdb t ht
    cases body with
    | none => exact hdb t ht
    | some p =>
      simp only [create_task] at ht
      split at ht
      · exact hdb t ht
      · split at ht
        · exact hdb t ht
        · exact hdb t ht
        · split at ht
          · exact hdb t ht
          · exact hdb t ht
          · rename_i hdc
            split at ht <;>
            · rw [List.mem_append] at ht
              rcases ht with ht | ht
              · exact hdb t ht
              · rw [List.mem_singleton] at ht
                subst ht
                exact dueValidated_newRow p now newId _ hdc
  · intro db tid body now hdb t ht
    cases body with
    | none => exact hdb t ht
    | some p =>
      simp only [update_task] at ht
      split at ht
      · exact hdb t ht
      · split at ht
        · exact hdb t ht
        · split at ht
          · exact hdb t ht
          · exact hdb t ht
          · split at ht
            · exact hdb t ht
            · exact hdb t ht
            · rename_i hdc
              split at ht <;>
              · by_cases haf : p.anyField = true
                · rw [if_pos haf] at ht
                  rw [List.mem_map] at ht
                  obtain ⟨x, hx, hgx⟩ := ht
                  by_cases hid : (x.id == tid) = true
                  · rw [if_pos hid] at hgx
                    subst hgx
                    exact dueValidated_applyPayload p now x hdc (hdb x hx)
                  · rw [if_neg hid] at hgx
                    subst hgx
                    exact hdb x hx
                · rw [if_neg haf] at ht
                  exact hdb t ht

/-- Witness for C6 (amended): the row stored by the counterexample's
create does satisfy the weakened invariant (its due_date is the empty
string, which the invariant exempts). -/
theorem c6_witness :
    DueValidated (newRow pBlankDue "2024-01-01T00:00:00Z" 1 "a") :=
  c6_amended.1 [] (some pBlankDue) "2024-01-01T00:00:00Z" 1 (by simp)
    (newRow pBlankDue "2024-01-01T00:00:00Z" 1 "a") (by decide)

end TaskAPI
